import Mathlib

/-!
Shallow embedding of the StarRocks in-memory sort/pruning kernel
(`be/src/exec/chunks_sorter.h`): the `DataSegment` structure with its
multi-column comparator `compare_at`, the boundary-pruning classification
`get_filter_array`, the `ChunksSorter` sink/source state machine
(`update`, `finish`, `done`, `get_next`, `get_sorted_runs`), and the
sort runtime-filter builder/updater of namespace `detail`.

Sort-key values are modelled as `Option Int`: `none` is SQL NULL, `some v`
a concrete comparable value (one representative logical type; the C++ side
dispatches the same comparison per logical type).
-/

namespace starrocks

/-- A sort-key value: `none` is SQL NULL. -/
abbrev Value := Option Int

/-- Three-way comparison of two non-null values, returning -1/0/1. -/
def compareInt (x y : Int) : Int :=
  if x < y then -1 else if x = y then 0 else 1

/-- Modelled from the spec: `Column::compare_at` of the external column
library (not part of this repository slice), restricted to one logical
type.  The null-ordering flag `null_first` is returned directly when the
left value is NULL and the right is not: a negative flag means NULL sorts
before every non-null value ("nulls first"), a positive flag means "nulls
last"; NULL compares equal to NULL; two non-null values compare as
integers. -/
def compareValue (null_first : Int) (a b : Value) : Int :=
  match a, b with
  | none, none => 0
  | none, some _ => null_first
  | some _, none => -null_first
  | some x, some y => compareInt x y

/-- One extracted sort-key column: its value at each row index. -/
abbrev Column := List Value

/-- A segment: a row batch (kept opaque, row-major) together with the
columns extracted from it for ordering, one per sort key (column-major). -/
structure DataSegment where
  chunk : List (List Value)
  order_by_columns : List Column
  deriving Repr, DecidableEq

namespace DataSegment

/-- Verdict code: row ranks strictly better than the reference segment's
best row ("tighten"). -/
def SMALLER_THAN_MIN_OF_SEGMENT : Nat := 2

/-- Verdict code: row belongs between the reference segment's best and
worst retained rows ("candidate"). -/
def INCLUDE_IN_SEGMENT : Nat := 1

/-- Verdict code: row ranks below the reference boundary's worst retained
row ("exclude"). -/
def LARGER_THAN_MAX_OF_SEGMENT : Nat := 0

/-- Number of rows of the segment's batch. -/
def num_rows (s : DataSegment) : Nat := s.chunk.length

/-- `DataSegment::clear`: release the batch and the extracted key columns. -/
def clear (_s : DataSegment) : DataSegment :=
  { chunk := [], order_by_columns := [] }

/-- The column-iteration loop of `DataSegment::compare_at`: walk the left
segment's key columns in declared order together with the right segment's
columns and the per-column flags; the first non-zero raw comparison, scaled
by that column's direction flag, is the result; all-equal gives 0. -/
def compare_at_aux (lcols rcols : List Column) (sort_order_flag null_first_flag : List Int)
    (i j : Nat) : Int :=
  match lcols with
  | [] => 0
  | lc :: lcs =>
    let rc := rcols.headD []
    let c := compareValue (null_first_flag.headD 0) (lc.getD i none) (rc.getD j none)
    if c ≠ 0 then c * sort_order_flag.headD 0
    else compare_at_aux lcs rcols.tail sort_order_flag.tail null_first_flag.tail i j

/-- `DataSegment::compare_at`: three-way comparison of row `index_in_chunk`
of this segment against row `index_in_other_chunk` of `other` under the
composite sort key (`sort_order_flag` is +1 ascending / -1 descending per
column, `null_first_flag` the per-column null-ordering hint). -/
def compare_at (s : DataSegment) (index_in_chunk : Nat) (other : DataSegment)
    (index_in_other_chunk : Nat) (sort_order_flag null_first_flag : List Int) : Int :=
  compare_at_aux s.order_by_columns other.order_by_columns sort_order_flag null_first_flag
    index_in_chunk index_in_other_chunk

/-- The raw (unscaled) comparison of column `k` between row `i` of `s` and
row `j` of `other`, as `compare_at` computes it before multiplying by the
direction flag. -/
def rawColumnCmp (s other : DataSegment) (null_first_flag : List Int) (i j k : Nat) : Int :=
  compareValue (null_first_flag.getD k 0) ((s.order_by_columns.getD k []).getD i none)
    ((other.order_by_columns.getD k []).getD j none)

/-- First pass of `get_filter_array`, modelled from the spec and the
header's algorithm comment: compare every row `i` of the candidate segment
with row `rows_to_sort - 1` of the reference segment `self`; mark it
`INCLUDE_IN_SEGMENT` when the comparison is `≤ 0`, otherwise leave it
`LARGER_THAN_MAX_OF_SEGMENT`. -/
def filter_pass1 (self cand : DataSegment) (rows_to_sort : Nat) (sf nf : List Int) : List Nat :=
  (List.range cand.num_rows).map (fun i =>
    if cand.compare_at i self (rows_to_sort - 1) sf nf ≤ 0 then INCLUDE_IN_SEGMENT
    else LARGER_THAN_MAX_OF_SEGMENT)

/-- Second pass of `get_filter_array`, modelled from the spec and the
header's algorithm comment: walk the first pass's marks (`i` is the row
index of the first mark); every `INCLUDE_IN_SEGMENT` row that compares
`< 0` against row 0 of the reference segment `self` is re-marked
`SMALLER_THAN_MIN_OF_SEGMENT` and counted in `least_num` (first counter),
the remaining `INCLUDE_IN_SEGMENT` rows are counted in `middle_num`
(second counter). -/
def filter_pass2 (self cand : DataSegment) (sf nf : List Int) :
    List Nat → Nat → List Nat × Nat × Nat
  | [], _ => ([], 0, 0)
  | m :: ms, i =>
    let rest := filter_pass2 self cand sf nf ms (i + 1)
    if m = INCLUDE_IN_SEGMENT then
      if cand.compare_at i self 0 sf nf < 0 then
        (SMALLER_THAN_MIN_OF_SEGMENT :: rest.1, rest.2.1 + 1, rest.2.2)
      else (INCLUDE_IN_SEGMENT :: rest.1, rest.2.1, rest.2.2 + 1)
    else (m :: rest.1, rest.2.1, rest.2.2)

/-- Modelled from the spec: the body of `DataSegment::get_filter_array`
(declared in the header with its two-pass algorithm described in the
accompanying comment, implemented outside this repository slice).  For
each candidate segment it runs the two passes and returns the per-segment
filter arrays together with the totals `least_num` (rows marked
`SMALLER_THAN_MIN_OF_SEGMENT`) and `middle_num` (rows left
`INCLUDE_IN_SEGMENT`). -/
def get_filter_array (self : DataSegment) (data_segments : List DataSegment)
    (rows_to_sort : Nat) (sf nf : List Int) : List (List Nat) × Nat × Nat :=
  data_segments.foldr
    (fun cand acc =>
      let res := filter_pass2 self cand sf nf (filter_pass1 self cand rows_to_sort sf nf) 0
      (res.1 :: acc.1, res.2.1 + acc.2.1, res.2.2 + acc.2.2))
    ([], 0, 0)

/-- The merged effect of the two passes on one row: excluded when it
compares worse than the boundary's worst retained row, tightened when it
compares strictly better than the boundary's best row, candidate
otherwise. -/
def classifyRow (self cand : DataSegment) (rows_to_sort : Nat) (sf nf : List Int)
    (i : Nat) : Nat :=
  if cand.compare_at i self (rows_to_sort - 1) sf nf > 0 then LARGER_THAN_MAX_OF_SEGMENT
  else if cand.compare_at i self 0 sf nf < 0 then SMALLER_THAN_MIN_OF_SEGMENT
  else INCLUDE_IN_SEGMENT

end DataSegment

/-- The key tuple of row `i` of a segment: the value each sort-key column
takes at that row. -/
def rowKey (s : DataSegment) (i : Nat) : List Value :=
  s.order_by_columns.map (fun col => col.getD i none)

/-- Lexicographic comparison of two key tuples under per-column direction
and null-ordering flags; the row-level counterpart of `compare_at_aux`. -/
def cmpRow (sort_order_flag null_first_flag : List Int) (x y : List Value) : Int :=
  match x with
  | [] => 0
  | v :: vs =>
    let c := compareValue (null_first_flag.headD 0) v (y.headD none)
    if c ≠ 0 then c * sort_order_flag.headD 0
    else cmpRow sort_order_flag.tail null_first_flag.tail vs y.tail

/-- The key tuples of all rows of a segment. -/
def segRows (s : DataSegment) : List (List Value) :=
  (List.range s.num_rows).map (rowKey s)

/-- The key tuples of the reference segment's retained sorted prefix. -/
def refRows (self : DataSegment) (rows_to_sort : Nat) : List (List Value) :=
  (List.range rows_to_sort).map (rowKey self)

/-- All rows seen so far when `get_filter_array` runs: the reference
segment's retained sorted prefix plus every row of every candidate
segment. -/
def allRowsSeen (self : DataSegment) (segs : List DataSegment)
    (rows_to_sort : Nat) : List (List Value) :=
  refRows self rows_to_sort ++ (segs.map segRows).flatten

/-- Operation outcome, mirroring `Status`: success or an error message. -/
inductive Status where
  | ok : Status
  | error : String → Status
  deriving Repr, DecidableEq

/-- The sink/source phases of the sorter state machine as the spec
describes them. -/
inductive SortPhase where
  | accumulating : SortPhase
  | finishing : SortPhase
  | producing : SortPhase
  | done : SortPhase
  deriving Repr, DecidableEq

/-- Insert a row into an already ordered list of rows. -/
def insertRow (le : List Value → List Value → Bool) (x : List Value) :
    List (List Value) → List (List Value)
  | [] => [x]
  | y :: ys => if le x y then x :: y :: ys else y :: insertRow le x ys

/-- Order all rows by insertion sort under the given row order. -/
def sortRows (le : List Value → List Value → Bool) : List (List Value) → List (List Value)
  | [] => []
  | x :: xs => insertRow le x (sortRows le xs)

/-- Modelled from the spec: the state of a `ChunksSorter` engine (the
concrete subclasses implementing `update`/`done`/`get_next` live outside
this repository slice).  It keeps the sort rules fixed at construction,
the segments retained during the sink phase, the ordered result built by
the final pass, the `_is_sink_complete` flag and the phase of the
sink/source state machine. -/
structure ChunksSorter where
  sort_exprs_arity : Nat
  sort_order_flag : List Int
  null_first_flag : List Int
  segments : List DataSegment
  result : List (List Value)
  is_sink_complete : Bool
  phase : SortPhase
  next_output_row : Nat
  deriving Repr, DecidableEq

namespace ChunksSorter

/-- Modelled from the spec: `ChunksSorter::update` is valid only while
accumulating; it rejects a batch whose extracted key-column count does not
match the declared sort-key arity or whose key columns' row counts do not
match the batch's row count, leaving the state unchanged; otherwise the
batch is retained as a segment. -/
def update (s : ChunksSorter) (seg : DataSegment) : Status × ChunksSorter :=
  if s.phase ≠ SortPhase.accumulating then
    (Status.error "update called after finish", s)
  else if seg.order_by_columns.length ≠ s.sort_exprs_arity then
    (Status.error "key-column count does not match sort-key arity", s)
  else if seg.order_by_columns.any (fun c => c.length ≠ seg.num_rows) then
    (Status.error "key-column row count does not match batch", s)
  else
    (Status.ok, { s with segments := s.segments ++ [seg] })

/-- Modelled from the spec: `ChunksSorter::finish` marks sink-complete,
transitions to `Finishing` and performs the final ordering pass over the
retained rows; calling it again after sink-complete is a no-op that
returns success. -/
def finish (s : ChunksSorter) : Status × ChunksSorter :=
  if s.is_sink_complete then (Status.ok, s)
  else
    (Status.ok,
      { s with
        is_sink_complete := true
        phase := SortPhase.finishing
        result := sortRows
          (fun a b => decide (cmpRow s.sort_order_flag s.null_first_flag a b ≤ 0))
          ((s.segments.map segRows).flatten) })

/-- Modelled from the spec: `ChunksSorter::done` finalizes the ordering
and transitions to `Producing`; valid only from `Finishing`. -/
def done_op (s : ChunksSorter) : Status × ChunksSorter :=
  if s.phase = SortPhase.finishing then
    (Status.ok, { s with phase := SortPhase.producing })
  else (Status.error "done called out of order", s)

/-- Modelled from the spec: `ChunksSorter::get_next` emits the remaining
ordered rows while producing and reports end-of-stream once exhausted. -/
def get_next (s : ChunksSorter) :
    Status × Option (List (List Value)) × Bool × ChunksSorter :=
  if s.phase = SortPhase.producing then
    if s.result.length ≤ s.next_output_row then
      (Status.ok, none, true, { s with phase := SortPhase.done })
    else
      (Status.ok, some (s.result.drop s.next_output_row), false,
        { s with next_output_row := s.result.length })
  else (Status.error "get_next called before done", none, false, s)

/-- Modelled from the spec: `ChunksSorter::get_sorted_runs` hands back the
retained runs without forcing a merge. -/
def get_sorted_runs (s : ChunksSorter) : List DataSegment := s.segments

end ChunksSorter

namespace detail

/-- A min-max range filter: the observable content of a
`JoinRuntimeFilter` produced by the sort runtime-filter path.  `none`
means that side is unbounded. -/
structure JoinRuntimeFilter where
  min_value : Option Int
  max_value : Option Int
  deriving Repr, DecidableEq

/-- Modelled from the spec: the external
`RuntimeBloomFilter::create_with_range<close_left>` builds a one-sided
range predicate from the boundary value: with `close_left = false` the
admissible side is `value ≤ boundary`, with `close_left = true` it is
`boundary ≤ value`. -/
def create_with_range (close_left : Bool) (data : Int) : JoinRuntimeFilter :=
  if close_left then { min_value := some data, max_value := none }
  else { min_value := none, max_value := some data }

/-- Modelled from the spec: the external
`RuntimeBloomFilter::update_min_max<close_left>` replaces the bound on the
closed side with the new boundary value, leaving the other side as it
was. -/
def update_min_max (close_left : Bool) (f : JoinRuntimeFilter) (data : Int) : JoinRuntimeFilter :=
  if close_left then { f with min_value := some data }
  else { f with max_value := some data }

/-- The predicate a min-max filter stands for: accept exactly the values
inside the (possibly one-sided) range. -/
def JoinRuntimeFilter.accepts (f : JoinRuntimeFilter) (v : Int) : Bool :=
  (match f.min_value with
   | none => true
   | some m => decide (m ≤ v)) &&
  (match f.max_value with
   | none => true
   | some m => decide (v ≤ m))

/-- `detail::SortRuntimeFilterBuilder`: read the boundary value at row
`rid` of the (data) column and build the range filter closed on the right
for an ascending column, closed on the left for a descending one. -/
def SortRuntimeFilterBuilder (column : List Int) (rid : Nat) (asc : Bool) : JoinRuntimeFilter :=
  let data := column.getD rid 0
  if asc then create_with_range false data
  else create_with_range true data

/-- `detail::SortRuntimeFilterUpdater`: read the new boundary value at row
`rid` of the (data) column and update the existing filter's closed side
with it, per the direction flag. -/
def SortRuntimeFilterUpdater (filter : JoinRuntimeFilter) (column : List Int) (rid : Nat)
    (asc : Bool) : JoinRuntimeFilter :=
  let data := column.getD rid 0
  if asc then update_min_max false filter data
  else update_min_max true filter data

end detail

end starrocks

namespace starrocks

/-! ## Basic comparator lemmas -/

lemma getD_tail {α : Type} (l : List α) (k : Nat) (d : α) :
    l.tail.getD k d = l.getD (k + 1) d := by
  cases l <;> simp [List.getD]

lemma getD_zero_headD {α : Type} (l : List α) (d : α) : l.getD 0 d = l.headD d := by
  cases l <;> simp [List.getD]

lemma compareValue_self (n : Int) (a : Value) : compareValue n a a = 0 := by
  cases a <;> simp [compareValue, compareInt]

lemma compareValue_swap (n : Int) (a b : Value) :
    compareValue n a b = -compareValue n b a := by
  cases a <;> cases b <;> simp [compareValue, compareInt] <;> split_ifs <;> omega

lemma compareInt_nonpos_iff (x y : Int) : compareInt x y ≤ 0 ↔ x ≤ y := by
  unfold compareInt
  split_ifs with h1 h2
  · constructor <;> intro h <;> omega
  · constructor <;> intro h <;> omega
  · constructor <;> intro h <;> omega

lemma compareInt_neg_iff (x y : Int) : compareInt x y < 0 ↔ x < y := by
  unfold compareInt
  split_ifs with h1 h2
  · constructor <;> intro h <;> omega
  · constructor <;> intro h <;> omega
  · constructor <;> intro h <;> omega

lemma compareInt_zero_iff (x y : Int) : compareInt x y = 0 ↔ x = y := by
  unfold compareInt
  split_ifs with h1 h2
  · constructor
    · intro h; exact absurd h (by norm_num)
    · intro h; omega
  · exact iff_of_true rfl h2
  · constructor
    · intro h; exact absurd h (by norm_num)
    · intro h; exact absurd h h2

lemma compareValue_trans_lt {n : Int} (hn : n = -1 ∨ n = 1) {a b c : Value}
    (h1 : compareValue n a b ≤ 0) (h2 : compareValue n b c < 0) :
    compareValue n a c < 0 := by
  rcases hn with rfl | rfl <;> cases a <;> cases b <;> cases c <;>
    simp only [compareValue, compareInt_nonpos_iff, compareInt_neg_iff] at h1 h2 ⊢ <;>
    omega

lemma compareValue_congr_right {n : Int} (hn : n = -1 ∨ n = 1) {b c : Value}
    (h : compareValue n b c = 0) (a : Value) :
    compareValue n a b = compareValue n a c := by
  rcases hn with rfl | rfl <;> cases a <;> cases b <;> cases c <;>
    simp only [compareValue, compareInt_zero_iff] at h ⊢ <;>
    first
    | rfl
    | omega
    | (subst h; rfl)
    | (unfold compareInt; split_ifs <;> omega)

lemma compareValue_congr_left {n : Int} (hn : n = -1 ∨ n = 1) {a b : Value}
    (h : compareValue n a b = 0) (c : Value) :
    compareValue n a c = compareValue n b c := by
  rcases hn with rfl | rfl <;> cases a <;> cases b <;> cases c <;>
    simp only [compareValue, compareInt_zero_iff] at h ⊢ <;>
    first
    | rfl
    | omega
    | (subst h; rfl)
    | (unfold compareInt; split_ifs <;> omega)

/-- `compare_at` only reads the extracted key columns: it equals the
lexicographic comparison of the two rows' key tuples. -/
lemma compare_at_eq_cmpRow (s other : DataSegment) (i j : Nat) (sf nf : List Int) :
    s.compare_at i other j sf nf = cmpRow sf nf (rowKey s i) (rowKey other j) := by
  unfold DataSegment.compare_at
  suffices h : ∀ (lcols rcols : List Column) (sf nf : List Int),
      DataSegment.compare_at_aux lcols rcols sf nf i j =
        cmpRow sf nf (lcols.map (fun col => col.getD i none))
          (rcols.map (fun col => col.getD j none)) by
    exact h _ _ _ _
  intro lcols
  induction lcols with
  | nil => intro rcols sf nf; simp [DataSegment.compare_at_aux, cmpRow]
  | cons lc lcs ih =>
    intro rcols sf nf
    cases rcols with
    | nil =>
      simp only [DataSegment.compare_at_aux, cmpRow, List.map_nil, List.headD_nil,
        List.tail_nil, List.map_cons, List.headD_cons, List.getD]
      rw [ih]
      simp
    | cons rc rcs =>
      simp only [DataSegment.compare_at_aux, cmpRow, List.map_cons, List.headD_cons,
        List.tail_cons]
      rw [ih]

lemma compare_at_aux_first_nonzero :
    ∀ (lcols rcols : List Column) (sf nf : List Int) (i j m : Nat),
      m < lcols.length →
      (∀ k, k < m →
        compareValue (nf.getD k 0) ((lcols.getD k []).getD i none)
          ((rcols.getD k []).getD j none) = 0) →
      compareValue (nf.getD m 0) ((lcols.getD m []).getD i none)
          ((rcols.getD m []).getD j none) ≠ 0 →
      DataSegment.compare_at_aux lcols rcols sf nf i j =
        compareValue (nf.getD m 0) ((lcols.getD m []).getD i none)
          ((rcols.getD m []).getD j none) * sf.getD m 0 := by
  intro lcols
  induction lcols with
  | nil => intro rcols sf nf i j m hm; simp at hm
  | cons lc lcs ih =>
    intro rcols sf nf i j m hm hzero hnz
    cases m with
    | zero =>
      rw [DataSegment.compare_at_aux]
      simp only [List.getD_cons_zero, getD_zero_headD, List.headD_cons] at hnz ⊢
      rw [if_pos hnz]
    | succ m =>
      rw [DataSegment.compare_at_aux]
      have h0 := hzero 0 (Nat.succ_pos m)
      simp only [List.getD_cons_zero, getD_zero_headD, List.headD_cons] at h0
      rw [if_neg (not_not_intro h0)]
      have hrec := ih rcols.tail sf.tail nf.tail i j m
        (by simpa using Nat.lt_of_succ_lt_succ hm)
        (fun k hk => by
          have hz := hzero (k + 1) (Nat.succ_lt_succ hk)
          simpa [getD_tail] using hz)
        (by simpa [getD_tail] using hnz)
      simpa [getD_tail] using hrec

lemma compare_at_aux_all_zero :
    ∀ (lcols rcols : List Column) (sf nf : List Int) (i j : Nat),
      (∀ k, k < lcols.length →
        compareValue (nf.getD k 0) ((lcols.getD k []).getD i none)
          ((rcols.getD k []).getD j none) = 0) →
      DataSegment.compare_at_aux lcols rcols sf nf i j = 0 := by
  intro lcols
  induction lcols with
  | nil => intro rcols sf nf i j _; rfl
  | cons lc lcs ih =>
    intro rcols sf nf i j hzero
    rw [DataSegment.compare_at_aux]
    have h0 := hzero 0 (Nat.succ_pos _)
    simp only [List.getD_cons_zero, getD_zero_headD, List.headD_cons] at h0
    rw [if_neg (not_not_intro h0)]
    exact ih rcols.tail sf.tail nf.tail i j (fun k hk => by
      have hz := hzero (k + 1) (Nat.succ_lt_succ hk)
      simpa [getD_tail] using hz)

/-- C3: the composite comparator is lexicographic and short-circuiting:
the first sort column (in declared order) whose raw comparison is non-zero
determines `compare_at`'s result, scaled by that column's direction flag;
if every column compares equal, `compare_at` returns 0. -/
theorem compare_at_lexicographic (s other : DataSegment) (i j : Nat) (sf nf : List Int) :
    (∀ m, m < s.order_by_columns.length →
      (∀ k, k < m → DataSegment.rawColumnCmp s other nf i j k = 0) →
      DataSegment.rawColumnCmp s other nf i j m ≠ 0 →
      s.compare_at i other j sf nf = DataSegment.rawColumnCmp s other nf i j m * sf.getD m 0)
    ∧ ((∀ k, k < s.order_by_columns.length → DataSegment.rawColumnCmp s other nf i j k = 0) →
      s.compare_at i other j sf nf = 0) := by
  constructor
  · intro m hm hzero hnz
    exact compare_at_aux_first_nonzero s.order_by_columns other.order_by_columns sf nf i j m
      hm hzero hnz
  · intro hzero
    exact compare_at_aux_all_zero s.order_by_columns other.order_by_columns sf nf i j hzero

/-- Witness for C3 at a concrete input: two sort columns, the first equal
and the second differing, so column 1 decides the comparison. -/
theorem compare_at_lexicographic_witness :
    (DataSegment.mk [[some 1, some 3]] [[some 1], [some 3]]).compare_at 0
        (DataSegment.mk [[some 1, some 2]] [[some 1], [some 2]]) 0 [1, -1] [-1, -1] =
      DataSegment.rawColumnCmp (DataSegment.mk [[some 1, some 3]] [[some 1], [some 3]])
        (DataSegment.mk [[some 1, some 2]] [[some 1], [some 2]]) [-1, -1] 0 0 1 *
        ([1, -1] : List Int).getD 1 0 :=
  (compare_at_lexicographic (DataSegment.mk [[some 1, some 3]] [[some 1], [some 3]])
      (DataSegment.mk [[some 1, some 2]] [[some 1], [some 2]]) 0 0 [1, -1] [-1, -1]).1 1
    (by decide) (by decide) (by decide)

/-- C10: a segment with no extracted order-by columns (as produced by
`clear`) compares equal to every row of every segment, and `compare_at`
never inspects the chunk itself, only the extracted key columns. -/
theorem compare_at_no_order_by_columns (s : DataSegment) (h : s.order_by_columns = []) :
    (∀ (other : DataSegment) (i j : Nat) (sf nf : List Int),
      s.compare_at i other j sf nf = 0)
    ∧ (∀ (other : DataSegment) (i j : Nat) (sf nf : List Int),
      (s.clear).compare_at i other j sf nf = 0)
    ∧ (∀ (chunk1 chunk2 : List (List Value)) (cols : List Column) (other : DataSegment)
        (i j : Nat) (sf nf : List Int),
      (DataSegment.mk chunk1 cols).compare_at i other j sf nf =
        (DataSegment.mk chunk2 cols).compare_at i other j sf nf) := by
  refine ⟨fun other i j sf nf => ?_, fun other i j sf nf => rfl, fun _ _ _ _ _ _ _ _ => rfl⟩
  simp [DataSegment.compare_at, h, DataSegment.compare_at_aux]

/-- Witness for C10 at a concrete input: a cleared segment against a
non-trivial segment. -/
theorem compare_at_no_order_by_columns_witness :
    (DataSegment.mk [[some 5]] [[some 5]]).clear.compare_at 0
      (DataSegment.mk [[some 7]] [[some 7]]) 0 [1] [-1] = 0 :=
  (compare_at_no_order_by_columns ((DataSegment.mk [[some 5]] [[some 5]]).clear) rfl).1
    (DataSegment.mk [[some 7]] [[some 7]]) 0 0 [1] [-1]

/-- C4: NULL ordering of the per-column comparison: with a negative
null-ordering flag ("nulls first") NULL is less than every non-null value,
with a positive flag ("nulls last") the relation is inverted; NULL equals
NULL, so the direction multiplication in `compare_at` never affects a
NULL-vs-NULL comparison (a single NULL column compares 0 under every
direction flag). -/
theorem compareValue_null_ordering :
    (∀ (nf : Int) (x : Int), nf < 0 →
      compareValue nf none (some x) < 0 ∧ 0 < compareValue nf (some x) none)
    ∧ (∀ (nf : Int) (x : Int), 0 < nf →
      0 < compareValue nf none (some x) ∧ compareValue nf (some x) none < 0)
    ∧ (∀ nf : Int, compareValue nf none none = 0)
    ∧ (∀ sfl nfl : List Int, cmpRow sfl nfl [none] [none] = 0) := by
  refine ⟨fun nf x h => ⟨?_, ?_⟩, fun nf x h => ⟨?_, ?_⟩, fun nf => rfl, fun sfl nfl => ?_⟩
  · simp only [compareValue]; omega
  · simp only [compareValue]; omega
  · simp only [compareValue]; omega
  · simp only [compareValue]; omega
  · simp [cmpRow, compareValue]

/-- Witness for C4 at concrete inputs: flags -1 and 1, value 7. -/
theorem compareValue_null_ordering_witness :
    (compareValue (-1) none (some 7) < 0 ∧ 0 < compareValue (-1) (some 7) none)
    ∧ (0 < compareValue 1 none (some 7) ∧ compareValue 1 (some 7) none < 0) :=
  ⟨compareValue_null_ordering.1 (-1) 7 (by decide),
   compareValue_null_ordering.2.1 1 7 (by decide)⟩


/-! ## Runtime filter derivation (C6, C7) -/

/-- C6: the filter `SortRuntimeFilterBuilder` derives from the boundary
value is the predicate `value ≤ boundary` for an ascending column and
`value ≥ boundary` for a descending one. -/
theorem sort_runtime_filter_builder_range (column : List Int) (rid : Nat) (asc : Bool)
    (v : Int) :
    (detail.SortRuntimeFilterBuilder column rid asc).accepts v =
      if asc then decide (v ≤ column.getD rid 0) else decide (column.getD rid 0 ≤ v) := by
  cases asc <;>
    simp [detail.SortRuntimeFilterBuilder, detail.create_with_range,
      detail.JoinRuntimeFilter.accepts]

/-- C7: updating an existing sort runtime filter with a new boundary value
yields a filter whose accept/reject behaviour is exactly that of a fresh
filter built from that value with the same direction flag. -/
theorem sort_runtime_filter_updater_equiv (col0 : List Int) (rid0 : Nat)
    (column : List Int) (rid : Nat) (asc : Bool) (v : Int) :
    (detail.SortRuntimeFilterUpdater (detail.SortRuntimeFilterBuilder col0 rid0 asc)
        column rid asc).accepts v =
      (detail.SortRuntimeFilterBuilder column rid asc).accepts v := by
  cases asc <;>
    simp [detail.SortRuntimeFilterUpdater, detail.SortRuntimeFilterBuilder,
      detail.update_min_max, detail.create_with_range, detail.JoinRuntimeFilter.accepts]

/-! ## Sorter state machine (C8, C9) -/

/-- C8: `finish` is idempotent: from any state in the accumulating phase,
a second `finish` after sink-complete is a no-op returning success, and
every subsequent output (`done`/`get_next`/`get_sorted_runs`) after two
calls equals the one after a single call. -/
theorem finish_idempotent (s : ChunksSorter) (h : s.phase = SortPhase.accumulating) :
    ((ChunksSorter.finish (ChunksSorter.finish s).2).1 = Status.ok ∧
      (ChunksSorter.finish (ChunksSorter.finish s).2).2 = (ChunksSorter.finish s).2)
    ∧ ChunksSorter.done_op (ChunksSorter.finish (ChunksSorter.finish s).2).2 =
        ChunksSorter.done_op (ChunksSorter.finish s).2
    ∧ ChunksSorter.get_next (ChunksSorter.finish (ChunksSorter.finish s).2).2 =
        ChunksSorter.get_next (ChunksSorter.finish s).2
    ∧ ChunksSorter.get_sorted_runs (ChunksSorter.finish (ChunksSorter.finish s).2).2 =
        ChunksSorter.get_sorted_runs (ChunksSorter.finish s).2 := by
  have hfix : ChunksSorter.finish (ChunksSorter.finish s).2 = (Status.ok, (ChunksSorter.finish s).2) := by
    unfold ChunksSorter.finish
    by_cases hc : s.is_sink_complete
    · simp [hc]
    · simp [hc]
  refine ⟨⟨?_, ?_⟩, ?_, ?_, ?_⟩ <;> rw [hfix]

/-- Witness for C8 at a concrete input: a one-segment sorter in the
accumulating phase. -/
theorem finish_idempotent_witness :
    ((ChunksSorter.finish (ChunksSorter.finish
        (ChunksSorter.mk 1 [1] [-1] [DataSegment.mk [[some 3]] [[some 3]]] [] false
          SortPhase.accumulating 0)).2).1 = Status.ok ∧
      (ChunksSorter.finish (ChunksSorter.finish
        (ChunksSorter.mk 1 [1] [-1] [DataSegment.mk [[some 3]] [[some 3]]] [] false
          SortPhase.accumulating 0)).2).2 = (ChunksSorter.finish
        (ChunksSorter.mk 1 [1] [-1] [DataSegment.mk [[some 3]] [[some 3]]] [] false
          SortPhase.accumulating 0)).2)
    ∧ ChunksSorter.done_op (ChunksSorter.finish (ChunksSorter.finish
        (ChunksSorter.mk 1 [1] [-1] [DataSegment.mk [[some 3]] [[some 3]]] [] false
          SortPhase.accumulating 0)).2).2 =
        ChunksSorter.done_op (ChunksSorter.finish
        (ChunksSorter.mk 1 [1] [-1] [DataSegment.mk [[some 3]] [[some 3]]] [] false
          SortPhase.accumulating 0)).2
    ∧ ChunksSorter.get_next (ChunksSorter.finish (ChunksSorter.finish
        (ChunksSorter.mk 1 [1] [-1] [DataSegment.mk [[some 3]] [[some 3]]] [] false
          SortPhase.accumulating 0)).2).2 =
        ChunksSorter.get_next (ChunksSorter.finish
        (ChunksSorter.mk 1 [1] [-1] [DataSegment.mk [[some 3]] [[some 3]]] [] false
          SortPhase.accumulating 0)).2
    ∧ ChunksSorter.get_sorted_runs (ChunksSorter.finish (ChunksSorter.finish
        (ChunksSorter.mk 1 [1] [-1] [DataSegment.mk [[some 3]] [[some 3]]] [] false
          SortPhase.accumulating 0)).2).2 =
        ChunksSorter.get_sorted_runs (ChunksSorter.finish
        (ChunksSorter.mk 1 [1] [-1] [DataSegment.mk [[some 3]] [[some 3]]] [] false
          SortPhase.accumulating 0)).2 :=
  finish_idempotent
    (ChunksSorter.mk 1 [1] [-1] [DataSegment.mk [[some 3]] [[some 3]]] [] false
      SortPhase.accumulating 0) rfl

/-- C9: a batch whose extracted key-column count does not match the
declared sort-key arity, or one of whose key columns' row counts does not
match the batch's row count, makes `update` return an error `Status` and
leaves the engine state unchanged: the batch is not partially absorbed. -/
theorem update_shape_error_atomic (s : ChunksSorter) (seg : DataSegment)
    (h : seg.order_by_columns.length ≠ s.sort_exprs_arity ∨
      ∃ c ∈ seg.order_by_columns, c.length ≠ seg.num_rows) :
    (∃ msg, (ChunksSorter.update s seg).1 = Status.error msg) ∧
      (ChunksSorter.update s seg).2 = s := by
  unfold ChunksSorter.update
  by_cases hphase : s.phase ≠ SortPhase.accumulating
  · rw [if_pos hphase]; exact ⟨⟨_, rfl⟩, rfl⟩
  · rw [if_neg hphase]
    by_cases harity : seg.order_by_columns.length ≠ s.sort_exprs_arity
    · rw [if_pos harity]; exact ⟨⟨_, rfl⟩, rfl⟩
    · rw [if_neg harity]
      rcases h with h | ⟨c, hc, hlen⟩
      · exact absurd h harity
      · rw [if_pos (List.any_eq_true.mpr ⟨c, hc, decide_eq_true hlen⟩)]
        exact ⟨⟨_, rfl⟩, rfl⟩

/-- Witness for C9 at a concrete input: a batch with a key column of 2
values over a 1-row chunk. -/
theorem update_shape_error_atomic_witness :
    (∃ msg, (ChunksSorter.update
        (ChunksSorter.mk 1 [1] [-1] [] [] false SortPhase.accumulating 0)
        (DataSegment.mk [[some 3]] [[some 1, some 2]])).1 = Status.error msg) ∧
      (ChunksSorter.update
        (ChunksSorter.mk 1 [1] [-1] [] [] false SortPhase.accumulating 0)
        (DataSegment.mk [[some 3]] [[some 1, some 2]])).2 =
        ChunksSorter.mk 1 [1] [-1] [] [] false SortPhase.accumulating 0 :=
  update_shape_error_atomic
    (ChunksSorter.mk 1 [1] [-1] [] [] false SortPhase.accumulating 0)
    (DataSegment.mk [[some 3]] [[some 1, some 2]])
    (Or.inr ⟨[some 1, some 2], by simp, by simp [DataSegment.num_rows]⟩)


/-! ## Characterization of the two-pass classification -/

lemma filter_pass2_pass1_spec (self cand : DataSegment) (K : Nat) (sf nf : List Int) :
    ∀ (n start : Nat),
      DataSegment.filter_pass2 self cand sf nf
        ((List.range' start n).map (fun i =>
          if cand.compare_at i self (K - 1) sf nf ≤ 0 then DataSegment.INCLUDE_IN_SEGMENT
          else DataSegment.LARGER_THAN_MAX_OF_SEGMENT)) start =
      (((List.range' start n).map (DataSegment.classifyRow self cand K sf nf)),
       ((List.range' start n).map (DataSegment.classifyRow self cand K sf nf)).countP
         (fun m => decide (m = DataSegment.SMALLER_THAN_MIN_OF_SEGMENT)),
       ((List.range' start n).map (DataSegment.classifyRow self cand K sf nf)).countP
         (fun m => decide (m = DataSegment.INCLUDE_IN_SEGMENT))) := by
  intro n
  induction n with
  | zero =>
    intro start
    simp [DataSegment.filter_pass2]
  | succ n ih =>
    intro start
    rw [List.range'_succ start n 1, List.map_cons, List.map_cons]
    by_cases hc : cand.compare_at start self (K - 1) sf nf ≤ 0
    · rw [if_pos hc]
      simp only [DataSegment.filter_pass2]
      rw [ih (start + 1)]
      by_cases hlt : cand.compare_at start self 0 sf nf < 0
      · have hcl : DataSegment.classifyRow self cand K sf nf start =
            DataSegment.SMALLER_THAN_MIN_OF_SEGMENT := by
          unfold DataSegment.classifyRow
          rw [if_neg (by omega), if_pos hlt]
        simp [hlt, hcl, List.countP_cons, DataSegment.SMALLER_THAN_MIN_OF_SEGMENT,
          DataSegment.INCLUDE_IN_SEGMENT]
      · have hcl : DataSegment.classifyRow self cand K sf nf start =
            DataSegment.INCLUDE_IN_SEGMENT := by
          unfold DataSegment.classifyRow
          rw [if_neg (by omega), if_neg hlt]
        simp [hlt, hcl, List.countP_cons, DataSegment.SMALLER_THAN_MIN_OF_SEGMENT,
          DataSegment.INCLUDE_IN_SEGMENT]
    · rw [if_neg hc]
      simp only [DataSegment.filter_pass2]
      rw [ih (start + 1)]
      have hcl : DataSegment.classifyRow self cand K sf nf start =
          DataSegment.LARGER_THAN_MAX_OF_SEGMENT := by
        unfold DataSegment.classifyRow
        rw [if_pos (by omega)]
      simp [hcl, List.countP_cons, DataSegment.SMALLER_THAN_MIN_OF_SEGMENT,
        DataSegment.INCLUDE_IN_SEGMENT, DataSegment.LARGER_THAN_MAX_OF_SEGMENT]

lemma get_filter_array_eq (self : DataSegment) (segs : List DataSegment) (K : Nat)
    (sf nf : List Int) :
    DataSegment.get_filter_array self segs K sf nf =
      (segs.map (fun cand =>
        (List.range cand.num_rows).map (DataSegment.classifyRow self cand K sf nf)),
       (segs.map (fun cand =>
        ((List.range cand.num_rows).map (DataSegment.classifyRow self cand K sf nf)).countP
          (fun m => decide (m = DataSegment.SMALLER_THAN_MIN_OF_SEGMENT)))).sum,
       (segs.map (fun cand =>
        ((List.range cand.num_rows).map (DataSegment.classifyRow self cand K sf nf)).countP
          (fun m => decide (m = DataSegment.INCLUDE_IN_SEGMENT)))).sum) := by
  induction segs with
  | nil => rfl
  | cons cand rest ih =>
    unfold DataSegment.get_filter_array at ih ⊢
    rw [List.foldr_cons, ih]
    have hp : DataSegment.filter_pass2 self cand sf nf
        (DataSegment.filter_pass1 self cand K sf nf) 0 =
      (((List.range cand.num_rows).map (DataSegment.classifyRow self cand K sf nf)),
       ((List.range cand.num_rows).map (DataSegment.classifyRow self cand K sf nf)).countP
         (fun m => decide (m = DataSegment.SMALLER_THAN_MIN_OF_SEGMENT)),
       ((List.range cand.num_rows).map (DataSegment.classifyRow self cand K sf nf)).countP
         (fun m => decide (m = DataSegment.INCLUDE_IN_SEGMENT))) := by
      unfold DataSegment.filter_pass1
      rw [List.range_eq_range' cand.num_rows]
      exact filter_pass2_pass1_spec self cand K sf nf cand.num_rows 0
    rw [hp]
    simp


lemma getD_map_of_lt {A B : Type} (f : A → B) (l : List A) (k : Nat) (d : A) (db : B)
    (hk : k < l.length) : (l.map f).getD k db = f (l.getD k d) := by
  rw [List.getD_eq_getElem _ _ (by simpa using hk), List.getElem_map,
    List.getD_eq_getElem _ _ hk]

/-- C2: the two-pass classification of `get_filter_array` marks a row
`LARGER_THAN_MAX_OF_SEGMENT` (exclude) exactly when it compares worse than
the row at position `rows_to_sort - 1` of the reference segment,
`SMALLER_THAN_MIN_OF_SEGMENT` (tighten) exactly when it survives the first
pass and compares strictly better than row 0 of the reference segment, and
`INCLUDE_IN_SEGMENT` (candidate) otherwise. -/
theorem get_filter_array_two_pass (self : DataSegment) (segs : List DataSegment) (K : Nat)
    (sf nf : List Int) (k i : Nat) (hk : k < segs.length)
    (hi : i < (segs.getD k (DataSegment.mk [] [])).num_rows) :
    ((DataSegment.get_filter_array self segs K sf nf).1.getD k []).getD i 3 =
      (if (segs.getD k (DataSegment.mk [] [])).compare_at i self (K - 1) sf nf > 0
        then DataSegment.LARGER_THAN_MAX_OF_SEGMENT
        else if (segs.getD k (DataSegment.mk [] [])).compare_at i self 0 sf nf < 0
          then DataSegment.SMALLER_THAN_MIN_OF_SEGMENT
          else DataSegment.INCLUDE_IN_SEGMENT) := by
  rw [get_filter_array_eq]
  dsimp only
  rw [getD_map_of_lt (fun cand =>
      (List.range cand.num_rows).map (DataSegment.classifyRow self cand K sf nf))
    segs k (DataSegment.mk [] []) [] hk]
  rw [getD_map_of_lt (DataSegment.classifyRow self (segs.getD k (DataSegment.mk [] [])) K sf nf)
    (List.range (segs.getD k (DataSegment.mk [] [])).num_rows) i 0 3 (by simpa using hi)]
  have hr : (List.range (segs.getD k (DataSegment.mk [] [])).num_rows).getD i 0 = i := by
    rw [List.getD_eq_getElem _ _ (by simpa using hi), List.getElem_range]
  rw [hr]
  rfl

/-- Witness for C2 at a concrete input: a 1-column reference segment with
sorted rows 1, 3 and one candidate segment holding the single value 5,
which the first pass excludes. -/
theorem get_filter_array_two_pass_witness :
    ((DataSegment.get_filter_array (DataSegment.mk [[some 1], [some 3]] [[some 1, some 3]])
        [DataSegment.mk [[some 5]] [[some 5]]] 2 [1] [-1]).1.getD 0 []).getD 0 3 =
      (if (DataSegment.mk [[some 5]] [[some 5]]).compare_at 0
            (DataSegment.mk [[some 1], [some 3]] [[some 1, some 3]]) (2 - 1) [1] [-1] > 0
        then DataSegment.LARGER_THAN_MAX_OF_SEGMENT
        else if (DataSegment.mk [[some 5]] [[some 5]]).compare_at 0
            (DataSegment.mk [[some 1], [some 3]] [[some 1, some 3]]) 0 [1] [-1] < 0
          then DataSegment.SMALLER_THAN_MIN_OF_SEGMENT
          else DataSegment.INCLUDE_IN_SEGMENT) :=
  get_filter_array_two_pass (DataSegment.mk [[some 1], [some 3]] [[some 1, some 3]])
    [DataSegment.mk [[some 5]] [[some 5]]] 2 [1] [-1] 0 0 (by decide) (by decide)

/-- C5: after classification, `least_num` equals the number of rows marked
`SMALLER_THAN_MIN_OF_SEGMENT` (tighten) across all candidate segments and
`middle_num` equals the number marked `INCLUDE_IN_SEGMENT` (candidate). -/
theorem get_filter_array_counts (self : DataSegment) (segs : List DataSegment) (K : Nat)
    (sf nf : List Int) :
    (DataSegment.get_filter_array self segs K sf nf).2.1 =
      (DataSegment.get_filter_array self segs K sf nf).1.flatten.countP
        (fun m => decide (m = DataSegment.SMALLER_THAN_MIN_OF_SEGMENT)) ∧
    (DataSegment.get_filter_array self segs K sf nf).2.2 =
      (DataSegment.get_filter_array self segs K sf nf).1.flatten.countP
        (fun m => decide (m = DataSegment.INCLUDE_IN_SEGMENT)) := by
  rw [get_filter_array_eq]
  constructor <;> simp [List.countP_flatten, List.map_map, Function.comp_def]


/-! ## Order-theoretic properties of the row comparator -/

lemma cmpRow_refl : ∀ (sf nf : List Int) (x : List Value), cmpRow sf nf x x = 0 := by
  intro sf nf x
  induction x generalizing sf nf with
  | nil => rfl
  | cons v vs ih =>
    simp only [cmpRow, List.headD_cons, List.tail_cons, compareValue_self, ne_eq,
      not_true_eq_false, if_false, ite_false]
    exact ih sf.tail nf.tail

lemma cmpRow_swap : ∀ (sf nf : List Int) (x y : List Value), x.length = y.length →
    cmpRow sf nf x y = -cmpRow sf nf y x := by
  intro sf nf x
  induction x generalizing sf nf with
  | nil =>
    intro y hlen
    cases y with
    | nil => rfl
    | cons w ws => simp at hlen
  | cons v vs ih =>
    intro y hlen
    cases y with
    | nil => simp at hlen
    | cons w ws =>
      simp only [cmpRow, List.headD_cons, List.tail_cons]
      rw [compareValue_swap (nf.headD 0) w v]
      by_cases hc : compareValue (nf.headD 0) v w = 0
      · rw [hc]
        simp only [neg_zero, ne_eq, not_true_eq_false, if_false, ite_false]
        exact ih sf.tail nf.tail ws (by simpa using hlen)
      · rw [if_pos hc, if_pos (by simpa using hc)]
        ring


lemma cmpRow_trans_lt : ∀ (sf nf : List Int) (a b c : List Value),
    a.length = b.length → b.length = c.length →
    a.length ≤ sf.length → a.length ≤ nf.length →
    (∀ f ∈ sf, f = -1 ∨ f = 1) → (∀ f ∈ nf, f = -1 ∨ f = 1) →
    cmpRow sf nf a b ≤ 0 → cmpRow sf nf b c < 0 → cmpRow sf nf a c < 0 := by
  intro sf nf a
  induction a generalizing sf nf with
  | nil =>
    intro b c hab hbc hsl hnl hsf hnf h1 h2
    cases b with
    | nil =>
      cases c with
      | nil => exact absurd h2 (by simp [cmpRow])
      | cons u us => simp at hbc
    | cons w ws => simp at hab
  | cons v vs ih =>
    intro b c hab hbc hsl hnl hsf hnf h1 h2
    cases b with
    | nil => simp at hab
    | cons w ws =>
    cases c with
    | nil => simp at hbc
    | cons u us =>
    cases sf with
    | nil => simp at hsl
    | cons s ss =>
    cases nf with
    | nil => simp at hnl
    | cons n ns =>
    have hs : s = -1 ∨ s = 1 := hsf s (List.mem_cons_self s ss)
    have hn : n = -1 ∨ n = 1 := hnf n (List.mem_cons_self n ns)
    simp only [cmpRow, List.headD_cons, List.tail_cons] at h1 h2 ⊢
    by_cases e1 : compareValue n v w = 0
    · by_cases e2 : compareValue n w u = 0
      · have e3 : compareValue n v u = 0 := by
          rw [← compareValue_congr_right hn e2 v, e1]
        rw [if_neg (not_not_intro e1)] at h1
        rw [if_neg (not_not_intro e2)] at h2
        rw [if_neg (not_not_intro e3)]
        exact ih ss ns ws us (by simpa using hab) (by simpa using hbc)
          (by simpa using hsl) (by simpa using hnl)
          (fun f hf => hsf f (List.mem_cons_of_mem s hf))
          (fun f hf => hnf f (List.mem_cons_of_mem n hf)) h1 h2
      · have e3 : compareValue n v u = compareValue n w u :=
          compareValue_congr_left hn e1 u
        rw [if_pos (by rw [e3]; exact e2)]
        rw [if_pos e2] at h2
        rw [e3]
        exact h2
    · by_cases e2 : compareValue n w u = 0
      · have e3 : compareValue n v u = compareValue n v w :=
          (compareValue_congr_right hn e2 v).symm
        rw [if_pos (by rw [e3]; exact e1)]
        rw [if_pos e1] at h1
        rw [e3]
        rcases hs with rfl | rfl
        · simp only [mul_neg_one] at h1 ⊢
          have hvw : compareValue n v w ≠ 0 := e1
          omega
        · simp only [mul_one] at h1 ⊢
          have hvw : compareValue n v w ≠ 0 := e1
          omega
      · rw [if_pos e1] at h1
        rw [if_pos e2] at h2
        rcases hs with rfl | rfl
        · simp only [mul_neg_one] at h1 h2 ⊢
          have huw : compareValue n u w ≤ 0 := by
            have hsw := compareValue_swap n u w; omega
          have hwv : compareValue n w v < 0 := by
            have hsw := compareValue_swap n w v
            have hne : compareValue n v w ≠ 0 := e1
            omega
          have huv : compareValue n u v < 0 := compareValue_trans_lt hn huw hwv
          have hvu : 0 < compareValue n v u := by
            have hsw := compareValue_swap n v u; omega
          rw [if_pos (by omega)]
          omega
        · simp only [mul_one] at h1 h2 ⊢
          have hvu : compareValue n v u < 0 := compareValue_trans_lt hn h1 h2
          rw [if_pos (by omega)]
          omega


/-- In a list sorted by `le`, if a predicate `p` is downward closed along
`le` (among members) and at least `K` elements satisfy it, then the first
`K` elements all satisfy it. -/
lemma sorted_countP_getD {A : Type} (d : A) (le : A → A → Prop) (p : A → Bool) :
    ∀ (s : List A) (K : Nat), s.Pairwise le →
      (∀ x ∈ s, ∀ y ∈ s, le x y → p y = true → p x = true) →
      K ≤ s.countP p → ∀ idx, idx < K → p (s.getD idx d) = true := by
  intro s
  induction s with
  | nil =>
    intro K _ _ hK idx hidx
    simp only [List.countP_nil, Nat.le_zero] at hK
    exact absurd hidx (by omega)
  | cons h tl ih =>
    intro K hpair hdc hK idx hidx
    have hpt : tl.Pairwise le := hpair.of_cons
    by_cases hp : p h = true
    · cases idx with
      | zero => simpa using hp
      | succ idx =>
        have htl := ih (K - 1) hpt
          (fun x hx y hy => hdc x (List.mem_cons_of_mem h hx) y (List.mem_cons_of_mem h hy))
          (by rw [List.countP_cons, if_pos hp] at hK; omega)
          idx (by omega)
        simpa using htl
    · exfalso
      have hall : ∀ x ∈ tl, ¬ p x = true := by
        intro x hx hpx
        have hle : le h x := (List.pairwise_cons.mp hpair).1 x hx
        exact hp (hdc h (List.mem_cons_self h tl) x (List.mem_cons_of_mem h hx) hle hpx)
      have hzero : tl.countP p = 0 := List.countP_eq_zero.mpr hall
      rw [List.countP_cons, hzero, if_neg hp] at hK
      omega

/-- Every row of the reference prefix has the length of the flag lists
when the segment's column count matches; similarly for candidates. -/
lemma rowKey_length (s : DataSegment) (i : Nat) :
    (rowKey s i).length = s.order_by_columns.length := by
  simp [rowKey]

lemma mem_allRowsSeen {self : DataSegment} {segs : List DataSegment} {K : Nat}
    {x : List Value} (hx : x ∈ allRowsSeen self segs K) :
    (∃ a, a < K ∧ x = rowKey self a) ∨ ∃ s' ∈ segs, ∃ j, x = rowKey s' j := by
  rcases List.mem_append.mp hx with hx | hx
  · left
    obtain ⟨a, ha, rfl⟩ := List.mem_map.mp hx
    exact ⟨a, List.mem_range.mp ha, rfl⟩
  · right
    obtain ⟨l, hl, hxl⟩ := List.mem_flatten.mp hx
    obtain ⟨s', hs', rfl⟩ := List.mem_map.mp hl
    obtain ⟨j, _, rfl⟩ := List.mem_map.mp hxl
    exact ⟨s', hs', j, rfl⟩

/-- Every row of the reference segment's retained prefix compares at or
below the anchor row `rows_to_sort - 1` when the prefix is sorted. -/
lemma refRows_le_anchor (self : DataSegment) (K : Nat) (sf nf : List Int) (hK : 0 < K)
    (hsorted : (refRows self K).Pairwise (fun a b => cmpRow sf nf a b ≤ 0)) :
    ∀ q ∈ refRows self K, cmpRow sf nf q (rowKey self (K - 1)) ≤ 0 := by
  intro q hq
  obtain ⟨a, ha, rfl⟩ := List.mem_map.mp hq
  have ha' : a < K := List.mem_range.mp ha
  by_cases hlast : a = K - 1
  · subst hlast
    exact le_of_eq (cmpRow_refl sf nf _)
  · have halt : a < K - 1 := by omega
    have hlen : (refRows self K).length = K := by simp [refRows]
    have hget := List.pairwise_iff_get.mp hsorted
      ⟨a, by omega⟩ ⟨K - 1, by omega⟩ (by simpa using halt)
    simpa [refRows] using hget


/-- C1: pruning soundness of `get_filter_array`: when the reference
segment's first `rows_to_sort` rows are sorted under the composite
comparator, every candidate row classified `LARGER_THAN_MAX_OF_SEGMENT`
(exclude) lies strictly after the first `rows_to_sort` positions of any
full sort of all rows seen so far (reference prefix plus all candidate
rows): each of those positions holds a row strictly smaller than the
excluded row, so the excluded row is not among them. -/
theorem get_filter_array_pruning_sound
    (self : DataSegment) (segs : List DataSegment) (K : Nat) (sf nf : List Int)
    (k i : Nat) (full : List (List Value))
    (hsf : ∀ f ∈ sf, f = -1 ∨ f = 1)
    (hnf : ∀ f ∈ nf, f = -1 ∨ f = 1)
    (hnfl : nf.length = sf.length)
    (hself : self.order_by_columns.length = sf.length)
    (hsegs : ∀ s' ∈ segs, s'.order_by_columns.length = sf.length)
    (hK : 0 < K)
    (hsorted : (refRows self K).Pairwise (fun a b => cmpRow sf nf a b ≤ 0))
    (hk : k < segs.length)
    (hi : i < (segs.getD k (DataSegment.mk [] [])).num_rows)
    (hexc : ((DataSegment.get_filter_array self segs K sf nf).1.getD k []).getD i 3 =
      DataSegment.LARGER_THAN_MAX_OF_SEGMENT)
    (hperm : full.Perm (allRowsSeen self segs K))
    (hfull : full.Pairwise (fun a b => cmpRow sf nf a b ≤ 0)) :
    ∀ idx, idx < K →
      cmpRow sf nf (full.getD idx []) (rowKey (segs.getD k (DataSegment.mk [] [])) i) < 0 ∧
        full.getD idx [] ≠ rowKey (segs.getD k (DataSegment.mk [] [])) i := by
  set cand := segs.getD k (DataSegment.mk [] []) with hcd
  have hcandmem : cand ∈ segs := by
    rw [hcd, List.getD_eq_getElem segs _ hk]
    exact List.getElem_mem hk
  have hcl : DataSegment.classifyRow self cand K sf nf i =
      DataSegment.LARGER_THAN_MAX_OF_SEGMENT := by
    rw [get_filter_array_eq] at hexc
    dsimp only at hexc
    rw [getD_map_of_lt (fun cand =>
        (List.range cand.num_rows).map (DataSegment.classifyRow self cand K sf nf))
      segs k (DataSegment.mk [] []) [] hk] at hexc
    rw [getD_map_of_lt (DataSegment.classifyRow self cand K sf nf)
      (List.range cand.num_rows) i 0 3 (by simpa using hi)] at hexc
    have hr : (List.range cand.num_rows).getD i 0 = i := by
      rw [List.getD_eq_getElem _ _ (by simpa using hi), List.getElem_range]
    rw [hr] at hexc
    exact hexc
  have hgt : cand.compare_at i self (K - 1) sf nf > 0 := by
    unfold DataSegment.classifyRow at hcl
    by_cases h : cand.compare_at i self (K - 1) sf nf > 0
    · exact h
    · rw [if_neg h] at hcl
      by_cases h2 : cand.compare_at i self 0 sf nf < 0
      · rw [if_pos h2] at hcl
        exact absurd hcl (by decide)
      · rw [if_neg h2] at hcl
        exact absurd hcl (by decide)
  have hrlen : (rowKey cand i).length = sf.length := by
    rw [rowKey_length]; exact hsegs cand hcandmem
  have hanchlen : (rowKey self (K - 1)).length = sf.length := by
    rw [rowKey_length]; exact hself
  have hra : 0 < cmpRow sf nf (rowKey cand i) (rowKey self (K - 1)) := by
    rw [← compare_at_eq_cmpRow]; exact hgt
  have har : cmpRow sf nf (rowKey self (K - 1)) (rowKey cand i) < 0 := by
    have hsw := cmpRow_swap sf nf (rowKey cand i) (rowKey self (K - 1)) (by omega)
    omega
  have hmemlen : ∀ x ∈ allRowsSeen self segs K, x.length = sf.length := by
    intro x hx
    rcases mem_allRowsSeen hx with ⟨a, _, rfl⟩ | ⟨s', hs', j, rfl⟩
    · rw [rowKey_length]; exact hself
    · rw [rowKey_length]; exact hsegs s' hs'
  have hrefp : ∀ q ∈ refRows self K, cmpRow sf nf q (rowKey cand i) < 0 := by
    intro q hq
    have hq1 : cmpRow sf nf q (rowKey self (K - 1)) ≤ 0 :=
      refRows_le_anchor self K sf nf hK hsorted q hq
    have hqlen : q.length = sf.length := by
      apply hmemlen
      exact List.mem_append.mpr (Or.inl hq)
    exact cmpRow_trans_lt sf nf q (rowKey self (K - 1)) (rowKey cand i)
      (by omega) (by omega) (by omega) (by omega) hsf hnf hq1 har
  have hcount : K ≤ (allRowsSeen self segs K).countP
      (fun x => decide (cmpRow sf nf x (rowKey cand i) < 0)) := by
    rw [allRowsSeen, List.countP_append]
    have hfullref : (refRows self K).countP
        (fun x => decide (cmpRow sf nf x (rowKey cand i) < 0)) = (refRows self K).length :=
      List.countP_eq_length.mpr (fun q hq => by simpa using hrefp q hq)
    have hlenref : (refRows self K).length = K := by simp [refRows]
    omega
  have hdc : ∀ x ∈ full, ∀ y ∈ full, cmpRow sf nf x y ≤ 0 →
      (fun x => decide (cmpRow sf nf x (rowKey cand i) < 0)) y = true →
      (fun x => decide (cmpRow sf nf x (rowKey cand i) < 0)) x = true := by
    intro x hx y hy hle hpy
    have hxlen : x.length = sf.length := hmemlen x (hperm.mem_iff.mp hx)
    have hylen : y.length = sf.length := hmemlen y (hperm.mem_iff.mp hy)
    have hpy' : cmpRow sf nf y (rowKey cand i) < 0 := of_decide_eq_true hpy
    have hres : cmpRow sf nf x (rowKey cand i) < 0 :=
      cmpRow_trans_lt sf nf x y (rowKey cand i)
        (by omega) (by omega) (by omega) (by omega) hsf hnf hle hpy'
    exact decide_eq_true hres
  have hp := sorted_countP_getD ([] : List Value) (fun a b => cmpRow sf nf a b ≤ 0)
    (fun x => decide (cmpRow sf nf x (rowKey cand i) < 0)) full K hfull hdc
    (by rw [hperm.countP_eq]; exact hcount)
  intro idx hidx
  have h1 : cmpRow sf nf (full.getD idx []) (rowKey cand i) < 0 :=
    of_decide_eq_true (hp idx hidx)
  refine ⟨h1, fun heq => ?_⟩
  rw [heq, cmpRow_refl] at h1
  exact absurd h1 (lt_irrefl 0)

/-- Witness for C1 at a concrete input: reference prefix rows 1, 3
(ascending, one column), one candidate segment with the single row 5,
which is classified exclude; both first positions of the full sort of all
rows seen hold rows strictly smaller than it. -/
theorem get_filter_array_pruning_sound_witness :
    (cmpRow [1] [-1]
        (([[some 1], [some 3], [some 5]] : List (List Value)).getD 1 [])
        (rowKey (([DataSegment.mk [[some 5]] [[some 5]]] :
          List DataSegment).getD 0 (DataSegment.mk [] [])) 0) < 0 ∧
      ([[some 1], [some 3], [some 5]] : List (List Value)).getD 1 [] ≠
        rowKey (([DataSegment.mk [[some 5]] [[some 5]]] :
          List DataSegment).getD 0 (DataSegment.mk [] [])) 0) :=
  get_filter_array_pruning_sound
    (DataSegment.mk [[some 1], [some 3]] [[some 1, some 3]])
    [DataSegment.mk [[some 5]] [[some 5]]] 2 [1] [-1] 0 0
    [[some 1], [some 3], [some 5]]
    (by decide) (by decide) (by decide) (by decide) (by decide) (by decide)
    (by decide) (by decide) (by decide) (by decide) (by decide) (by decide)
    1 (by decide)

end starrocks
